import Mathlib

/-!
# Chameleon privacy module: stealth keys and sanction screening

A shallow embedding of `internal/sanctions/detector.go`,
`internal/privacy/stealth.go` and `controller/recover_stealth_priv_key.go`.

* Go's `map[string]struct{}` is a finite set of strings (`Finset String`):
  unordered, every key held once.
* `*big.Int` scalars and coordinates are natural numbers (keys are non-nil,
  their numbers non-negative); `[]byte` is a list of byte values.
* The libraries the package calls (the curve `crypto.S256()`, `Keccak256`,
  `PubkeyToAddress(..).Hex()`, `rand.Reader`) are parameters, gathered in
  `privacy.Lib`.  Statements that need the group structure of the curve assume
  `elliptic.Curve.Lawful`.
* Keccak-256 itself is given in `keccak`, for the evaluations that depend on
  the value of the hash; `privacy.withNil` is the recovery over a curve library
  whose multiplications may return nil.
* Calls of `log` do not influence any result and are left out; the mutex of the
  detector is not represented (every operation is one atomic step).
-/

/-! ## math/big -/

namespace big

/-- Little-endian base-256 digits of `n`, at most `fuel` of them. -/
def bytesLE : Nat → Nat → List Nat
  | 0, _ => []
  | fuel + 1, n => if n = 0 then [] else (n % 256) :: bytesLE fuel (n / 256)

/-- Go `(*big.Int).Bytes`: the big-endian bytes of `n`, without leading zero
bytes (the empty slice for zero). -/
def Bytes (n : Nat) : List Nat := (bytesLE n n).reverse

/-- Go `(*big.Int).SetBytes`: the bytes read as a big-endian unsigned integer. -/
def SetBytes (bs : List Nat) : Nat := bs.foldl (fun acc b => acc * 256 + b) 0

end big

/-! ## internal/sanctions/detector.go -/

namespace sanctions

/-- The detector: the set of sanctioned address strings. -/
structure Detector where
  SanctionedAddresses : Finset String
deriving DecidableEq

/-- Go `AddAddress`: `d.SanctionedAddresses[address] = struct{}{}`. -/
def Detector.AddAddress (d : Detector) (address : String) : Detector :=
  { SanctionedAddresses := insert address d.SanctionedAddresses }

/-- Go `RemoveAddress`: `delete(d.SanctionedAddresses, address)`. -/
def Detector.RemoveAddress (d : Detector) (address : String) : Detector :=
  { SanctionedAddresses := d.SanctionedAddresses.erase address }

/-- Go `IsSanctioned`: `_, exists := d.SanctionedAddresses[address]`. -/
def Detector.IsSanctioned (d : Detector) (address : String) : Bool :=
  decide (address ∈ d.SanctionedAddresses)

/-- Go `NewDetector`: an empty map, then `AddAddress` for every element of the
slice, in order. -/
def NewDetector (initialAddresses : List String) : Detector :=
  initialAddresses.foldl (fun detector addr => detector.AddAddress addr)
    { SanctionedAddresses := ∅ }

end sanctions

/-! ## crypto/elliptic, crypto/ecdsa -/

namespace elliptic

/-- The part of Go's `elliptic.Curve` interface used by the package.  Points
are affine coordinate pairs, scalars are byte slices; `N` is `Params().N`, the
order of the base point, which is positive. -/
structure Curve where
  N : Nat
  N_pos : 0 < N
  ScalarMult : Nat → Nat → List Nat → Nat × Nat
  ScalarBaseMult : List Nat → Nat × Nat
  Add : Nat → Nat → Nat → Nat → Nat × Nat

/-- The multiple `k·G` of the base point: `ScalarBaseMult(k.Bytes())`. -/
def Curve.mulG (c : Curve) (k : Nat) : Nat × Nat := c.ScalarBaseMult (big.Bytes k)

/-- The contract of `elliptic.Curve` on the group generated by the base point
`G`, a cyclic group of order `N`: `k·G` depends on `k` modulo `N` only, `Add`
adds multiples of `G`, and `ScalarMult` multiplies them. -/
structure Curve.Lawful (c : Curve) : Prop where
  base_mod : ∀ k : Nat, c.mulG (k % c.N) = c.mulG k
  base_add : ∀ a b : Nat,
    c.Add (c.mulG a).1 (c.mulG a).2 (c.mulG b).1 (c.mulG b).2 = c.mulG (a + b)
  mult_base : ∀ a k : Nat,
    c.ScalarMult (c.mulG a).1 (c.mulG a).2 (big.Bytes k) = c.mulG (a * k)

end elliptic

namespace ecdsa

/-- Go `ecdsa.PublicKey`. -/
structure PublicKey where
  Curve : elliptic.Curve
  X : Nat
  Y : Nat

/-- Go `ecdsa.PrivateKey`: the embedded public key and the scalar `D`. -/
structure PrivateKey where
  PublicKey : PublicKey
  D : Nat

end ecdsa

namespace privacy

/-- Go `error` values the package returns. -/
inductive Error where
  | ErrSanctionedAddress
  | readerFailure (msg : String)
deriving DecidableEq

/-- The library functions called by `stealth.go`.  `randReader` is the secure
random source as seen through `ecdsa.GenerateKey`: a step on the state `ρ` of
the source that yields the drawn scalar or the error of the source. -/
structure Lib (ρ : Type) where
  S256 : elliptic.Curve
  Keccak256 : List Nat → List Nat
  PubkeyToAddressHex : ecdsa.PublicKey → String
  randReader : ρ → Except Error Nat × ρ

/-- Modelled from the spec: `ecdsa.GenerateKey` of the Go standard library,
"generate a fresh random ephemeral scalar `e` using a cryptographically secure
random source; compute ephemeral public point `E = e·G`".  One draw from the
source; its failure is returned as the error. -/
def GenerateKey {ρ : Type} (c : elliptic.Curve) (randReader : ρ → Except Error Nat × ρ)
    (r : ρ) : (Option ecdsa.PrivateKey × Option Error) × ρ :=
  match randReader r with
  | (Except.error err, r1) => ((none, some err), r1)
  | (Except.ok k, r1) =>
    let p := c.ScalarBaseMult (big.Bytes k)
    ((some { PublicKey := { Curve := c, X := p.1, Y := p.2 }, D := k }, none), r1)

/-- Go `PrivacyManager`. -/
structure PrivacyManager where
  Detector : sanctions.Detector

/-- Go `NewPrivacyManager`. -/
def NewPrivacyManager (detector : sanctions.Detector) : PrivacyManager :=
  { Detector := detector }

/-- Go `GenerateStealthAddress`: returns `(stealthPub, ephemeralPrivKey, err)`
and the state of the random source after the call. -/
def PrivacyManager.GenerateStealthAddress {ρ : Type} (lib : Lib ρ) (pm : PrivacyManager)
    (pubKey : ecdsa.PublicKey) (r : ρ) :
    (Option ecdsa.PublicKey × Option ecdsa.PrivateKey × Option Error) × ρ :=
  let address := lib.PubkeyToAddressHex pubKey
  if pm.Detector.IsSanctioned address then
    ((none, none, some Error.ErrSanctionedAddress), r)
  else
    match GenerateKey lib.S256 lib.randReader r with
    | ((none, err), r1) => ((none, none, err), r1)
    | ((some ephemeralPrivKey, _), r1) =>
      let sharedX := (pubKey.Curve.ScalarMult pubKey.X pubKey.Y (big.Bytes ephemeralPrivKey.D)).1
      let sharedSecret := lib.Keccak256 (big.Bytes sharedX)
      let s := big.SetBytes sharedSecret
      let sG := pubKey.Curve.ScalarBaseMult (big.Bytes s)
      let stealthPubXY := pubKey.Curve.Add pubKey.X pubKey.Y sG.1 sG.2
      let stealthPub : ecdsa.PublicKey :=
        { Curve := lib.S256, X := stealthPubXY.1, Y := stealthPubXY.2 }
      ((some stealthPub, some ephemeralPrivKey, none), r1)

/-- Go `GenerateSharedSecret`: returns `(sharedSecret, nil)`. -/
def PrivacyManager.GenerateSharedSecret {ρ : Type} (lib : Lib ρ) (_pm : PrivacyManager)
    (privKey : ecdsa.PrivateKey) (ephemeralPub : ecdsa.PublicKey) :
    List Nat × Option Error :=
  let sharedX :=
    (privKey.PublicKey.Curve.ScalarMult ephemeralPub.X ephemeralPub.Y (big.Bytes privKey.D)).1
  let sharedSecret := lib.Keccak256 (big.Bytes sharedX)
  (sharedSecret, none)

/-- Go `RecoverStealthPrivateKey`: returns `(key, err)`. -/
def PrivacyManager.RecoverStealthPrivateKey {ρ : Type} (lib : Lib ρ) (pm : PrivacyManager)
    (recipientPriv : ecdsa.PrivateKey) (ephemeralPub : ecdsa.PublicKey) :
    Option ecdsa.PrivateKey × Option Error :=
  match pm.GenerateSharedSecret lib recipientPriv ephemeralPub with
  | (_, some err) => (none, some err)
  | (sharedSecret, none) =>
    let s := big.SetBytes sharedSecret
    let stealthPrivKey := (recipientPriv.D + s) % recipientPriv.PublicKey.Curve.N
    let stealthPubXY := recipientPriv.PublicKey.Curve.ScalarBaseMult (big.Bytes stealthPrivKey)
    let stealthPublicKey : ecdsa.PublicKey :=
      { Curve := recipientPriv.PublicKey.Curve, X := stealthPubXY.1, Y := stealthPubXY.2 }
    (some { PublicKey := stealthPublicKey, D := stealthPrivKey }, none)

/-- The scalar `s` of the protocol, in the words of the specification: the hash
of the x-coordinate of the shared point `d·(x, y)` on the curve `c`, read as a
big-endian integer (not reduced modulo the order). -/
def hashScalar {ρ : Type} (lib : Lib ρ) (c : elliptic.Curve) (x y d : Nat) : Nat :=
  big.SetBytes (lib.Keccak256 (big.Bytes (c.ScalarMult x y (big.Bytes d)).1))

end privacy

/-! ## A small instance of the libraries

The curve `y² = x³ + 7` over the field with 13 elements, with base point
`(7, 5)` of prime order 7, affine coordinates and `(0, 0)` for the point at
infinity; a one-byte stand-in for the hash; a random source that replays a
list of outcomes. -/

namespace toy

/-- Inverse modulo 13 (Fermat). -/
def inv (a : Nat) : Nat := a ^ 11 % 13

/-- Affine addition on `y² = x³ + 7` modulo 13; `(0, 0)` is the neutral element. -/
def add (x1 y1 x2 y2 : Nat) : Nat × Nat :=
  if x1 = 0 ∧ y1 = 0 then (x2, y2)
  else if x2 = 0 ∧ y2 = 0 then (x1, y1)
  else if x1 % 13 = x2 % 13 then
    if (y1 + y2) % 13 = 0 then (0, 0)
    else
      let l := 3 * x1 * x1 * inv (2 * y1) % 13
      let x3 := (l * l + 26 - x1 % 13 - x2 % 13) % 13
      (x3, (l * (x1 % 13 + 13 - x3) + 13 - y1 % 13) % 13)
  else
    let l := (y2 % 13 + 13 - y1 % 13) * inv (x2 % 13 + 13 - x1 % 13) % 13
    let x3 := (l * l + 26 - x1 % 13 - x2 % 13) % 13
    (x3, (l * (x1 % 13 + 13 - x3) + 13 - y1 % 13) % 13)

/-- The multiple `k·(x, y)` by repeated addition. -/
def mul (x y : Nat) : Nat → Nat × Nat
  | 0 => (0, 0)
  | k + 1 => add (mul x y k).1 (mul x y k).2 x y

/-- The curve of the instance: order 7, base point `(7, 5)`. -/
def curve : elliptic.Curve where
  N := 7
  N_pos := by decide
  ScalarMult := fun x y k => mul x y (big.SetBytes k)
  ScalarBaseMult := fun k => mul 7 5 (big.SetBytes k)
  Add := add

/-- A one-byte stand-in for Keccak-256. -/
def hash (bs : List Nat) : List Nat := [(big.SetBytes bs * 5 + 3) % 256]

/-- The address of a public key: the address `0xbad` for the point `(8, 5)`. -/
def addressHex (pk : ecdsa.PublicKey) : String :=
  if pk.X = 8 ∧ pk.Y = 5 then "0xbad" else "0xgood"

/-- A random source replaying a list of outcomes; it fails when exhausted. -/
def reader : List (Except privacy.Error Nat) → Except privacy.Error Nat × List (Except privacy.Error Nat)
  | [] => (Except.error (privacy.Error.readerFailure "EOF"), [])
  | x :: rest => (x, rest)

/-- The libraries of the instance. -/
def lib : privacy.Lib (List (Except privacy.Error Nat)) where
  S256 := curve
  Keccak256 := hash
  PubkeyToAddressHex := addressHex
  randReader := reader

/-- A manager whose detector holds the address `0xbad`. -/
def pm : privacy.PrivacyManager :=
  privacy.NewPrivacyManager (sanctions.NewDetector ["0xbad"])

end toy

/-! ## Further definitions -/

/-- Lines 42-43 of `GenerateStealthAddress`: the secret of the sender, the hash
of the bytes of the x-coordinate of `e·P_r`. -/
def privacy.senderSharedSecret {ρ : Type} (lib : privacy.Lib ρ) (pubKey : ecdsa.PublicKey)
    (e : Nat) : List Nat :=
  lib.Keccak256 (big.Bytes (pubKey.Curve.ScalarMult pubKey.X pubKey.Y (big.Bytes e)).1)

/-- Two strings that agree once every letter is lowered: they differ at most in
letter case. -/
def sanctions.sameUpToCase (a b : String) : Prop :=
  a.data.map Char.toLower = b.data.map Char.toLower

instance sanctions.sameUpToCase.instDecidable (a b : String) :
    Decidable (sanctions.sameUpToCase a b) :=
  inferInstanceAs (Decidable (a.data.map Char.toLower = b.data.map Char.toLower))

/-! ## controller/recover_stealth_priv_key.go

Go strings are byte sequences and `s[2:]` is a slice by byte offsets, so the
strings of the request are lists of bytes here. -/

namespace controller

/-- Go `models.RecoverPrivKeyRequest` (declared outside the files at hand): the
two string fields the handler reads. -/
structure RecoverPrivKeyRequest where
  RecipientPrivKey : List Nat
  EphemeralPubKey : List Nat

/-- Go `models.Server` (declared outside the files at hand): the field the
handler reads. -/
structure Server where
  PrivacyManager : privacy.PrivacyManager

/-- The library functions called by the handler; `none` stands for a non-nil
error. -/
structure Lib where
  DecodeString : List Nat → Option (List Nat)
  ToECDSA : List Nat → Option ecdsa.PrivateKey
  UnmarshalPubkey : List Nat → Option ecdsa.PublicKey

/-- How a call of the handler ends: a runtime failure (a Go run-time error such as
a slice bound out of range), or a JSON response with its HTTP status and, on
success, the recovered key. -/
inductive HandlerResult where
  | runtimeFailure
  | response (status : Nat) (recovered : Option ecdsa.PrivateKey)

/-- Go slice expression `s[low:]` on a string: a run-time error (`none`) when
`low` exceeds the length. -/
def sliceFrom (s : List Nat) (low : Nat) : Option (List Nat) :=
  if low ≤ s.length then some (s.drop low) else none

/-- Go `RecoverStealthPrivKey`.  `bound` is the outcome of `c.ShouldBindJSON`:
`none` for a binding error, otherwise the bound request. -/
def RecoverStealthPrivKey {ρ : Type} (clib : Lib) (lib : privacy.Lib ρ)
    (bound : Option RecoverPrivKeyRequest) (s : Server) : HandlerResult :=
  match bound with
  | none => HandlerResult.response 400 none
  | some req =>
    match sliceFrom req.RecipientPrivKey 2 with
    | none => HandlerResult.runtimeFailure
    | some privHex =>
      match clib.DecodeString privHex with
      | none => HandlerResult.response 400 none
      | some recipientPrivBytes =>
        match clib.ToECDSA recipientPrivBytes with
        | none => HandlerResult.response 400 none
        | some recipientPrivKey =>
          match sliceFrom req.EphemeralPubKey 2 with
          | none => HandlerResult.runtimeFailure
          | some pubHex =>
            match clib.DecodeString pubHex with
            | none => HandlerResult.response 400 none
            | some ephemeralPubBytes =>
              match clib.UnmarshalPubkey ephemeralPubBytes with
              | none => HandlerResult.response 400 none
              | some ephemeralPubKey =>
                match s.PrivacyManager.RecoverStealthPrivateKey lib recipientPrivKey
                    ephemeralPubKey with
                | (_, some _) => HandlerResult.response 500 none
                | (none, none) => HandlerResult.runtimeFailure
                | (some recoveredPrivKey, none) =>
                  HandlerResult.response 200 (some recoveredPrivKey)

end controller

/-! ## Keccak-256

The hash that `crypto.Keccak256` computes: the sponge over Keccak-f[1600] with
rate 136 bytes and the original Keccak padding, 32 bytes of output. -/

namespace keccak

/-- Rotation of a 64-bit lane to the left. -/
def rotl (v n : Nat) : Nat := ((v <<< n) % 2 ^ 64) ||| (v >>> (64 - n))

/-- Round constants of Keccak-f[1600]. -/
def roundConstants : List Nat :=
  [1, 32898, 9223372036854808714, 9223372039002292224, 32907, 2147483649,
   9223372039002292353, 9223372036854808585, 138, 136, 2147516425, 2147483658,
   2147516555, 9223372036854775947, 9223372036854808713, 9223372036854808579,
   9223372036854808578, 9223372036854775936, 32778, 9223372039002259466,
   9223372039002292353, 9223372036854808704, 2147483649, 9223372039002292232]

/-- For each lane of the output of the steps rho and pi: the source lane and its
rotation. -/
def rhoPi : List (Nat × Nat) :=
  [(0, 0), (6, 44), (12, 43), (18, 21), (24, 14), (3, 28), (9, 20), (10, 3), (16, 45),
   (22, 61), (1, 1), (7, 6), (13, 25), (19, 8), (20, 18), (4, 27), (5, 36), (11, 10),
   (17, 15), (23, 56), (2, 62), (8, 55), (14, 39), (15, 41), (21, 2)]

/-- Lane `i` of a state. -/
def lane (a : List Nat) (i : Nat) : Nat := a.getD i 0

/-- The 25 lane indices. -/
def indices : List Nat :=
  [0, 1, 2, 3, 4, 5, 6, 7, 8, 9, 10, 11, 12, 13, 14, 15, 16, 17, 18, 19, 20, 21, 22, 23, 24]

/-- One round of Keccak-f[1600] on the 25 lanes (lane `x + 5y`). -/
def round (a : List Nat) (rc : Nat) : List Nat :=
  let c := [0, 1, 2, 3, 4].map fun x =>
    lane a x ^^^ lane a (x + 5) ^^^ lane a (x + 10) ^^^ lane a (x + 15) ^^^ lane a (x + 20)
  let d := [0, 1, 2, 3, 4].map fun x => lane c ((x + 4) % 5) ^^^ rotl (lane c ((x + 1) % 5)) 1
  let t := indices.map fun i => lane a i ^^^ lane d (i % 5)
  let b := rhoPi.map fun p => rotl (lane t p.1) p.2
  let e := indices.map fun i =>
    lane b i ^^^ ((lane b ((i + 1) % 5 + 5 * (i / 5)) ^^^ (2 ^ 64 - 1))
      &&& lane b ((i + 2) % 5 + 5 * (i / 5)))
  e.zipWith (fun v i => if i = 0 then v ^^^ rc else v) indices

/-- The permutation Keccak-f[1600]: 24 rounds. -/
def permute (a : List Nat) : List Nat := roundConstants.foldl round a

/-- Little-endian value of a list of bytes. -/
def laneOfBytes (bs : List Nat) : Nat := bs.foldr (fun b acc => acc * 256 + b) 0

/-- The eight little-endian bytes of a lane. -/
def bytesOfLane (v : Nat) : List Nat :=
  [0, 1, 2, 3, 4, 5, 6, 7].map fun j => (v >>> (8 * j)) % 256

/-- Padding of Keccak (`pad10*1` after no suffix bits) to a multiple of 136 bytes. -/
def pad (bs : List Nat) : List Nat :=
  let q := 136 - bs.length % 136
  if q = 1 then bs ++ [129] else bs ++ [1] ++ List.replicate (q - 2) 0 ++ [128]

/-- Absorbing the padded message, 136 bytes at a time. -/
def absorb : Nat → List Nat → List Nat → List Nat
  | 0, a, _ => a
  | fuel + 1, a, bs =>
    if bs = [] then a
    else
      let blk := bs.take 136
      let a1 := indices.map fun i =>
        lane a i ^^^ (if i < 17 then laneOfBytes ((blk.drop (8 * i)).take 8) else 0)
      absorb fuel (permute a1) (bs.drop 136)

/-- Keccak-256 of a byte string: 32 bytes. -/
def Keccak256 (bs : List Nat) : List Nat :=
  let a := absorb (bs.length + 1) (List.replicate 25 0) (pad bs)
  bytesOfLane (lane a 0) ++ bytesOfLane (lane a 1) ++ bytesOfLane (lane a 2)
    ++ bytesOfLane (lane a 3)

end keccak

/-- The libraries of the small instance with the hash Keccak-256 itself in place
of the stand-in. -/
def toy.keccakLib : privacy.Lib (List (Except privacy.Error Nat)) where
  S256 := toy.curve
  Keccak256 := keccak.Keccak256
  PubkeyToAddressHex := toy.addressHex
  randReader := toy.reader

/-! ## Recovery over a curve library that may return nil

`crypto.S256()` in the build with the C backend returns `(nil, nil)` from
`ScalarMult` and `ScalarBaseMult` for a scalar that is zero or not below the
order.  Here the two functions return an option, `none` for `(nil, nil)`, and
the call of `Bytes` on a nil `*big.Int` is a run-time failure. -/

/-- The curve interface as read by `RecoverStealthPrivateKey`, with results that
may be nil. -/
structure elliptic.NilCurve where
  N : Nat
  N_pos : 0 < N
  ScalarMult : Nat → Nat → List Nat → Option (Nat × Nat)
  ScalarBaseMult : List Nat → Option (Nat × Nat)

/-- A curve whose functions always return coordinates, seen as a `NilCurve`. -/
def elliptic.Curve.toNilCurve (c : elliptic.Curve) : elliptic.NilCurve where
  N := c.N
  N_pos := c.N_pos
  ScalarMult := fun x y k => some (c.ScalarMult x y k)
  ScalarBaseMult := fun k => some (c.ScalarBaseMult k)

namespace privacy.withNil

/-- The returned `*ecdsa.PrivateKey`: the scalar `D` and the coordinates of the
public point, which are nil when `ScalarBaseMult` returned nil. -/
structure Key where
  D : Nat
  XY : Option (Nat × Nat)
deriving DecidableEq

/-- How a call ends: a run-time failure, or a return of `(key, err)`. -/
inductive Outcome where
  | runtimeFailure
  | returned (key : Option Key) (err : Option privacy.Error)
deriving DecidableEq

/-- Go `GenerateSharedSecret` for the recipient scalar `d` on the curve `c` and
the ephemeral point `(x, y)`: `none` is the run-time failure of
`sharedX.Bytes()` on a nil `sharedX`, otherwise `(sharedSecret, nil)`. -/
def GenerateSharedSecret (Keccak256 : List Nat → List Nat) (c : elliptic.NilCurve)
    (d x y : Nat) : Option (List Nat × Option privacy.Error) :=
  match c.ScalarMult x y (big.Bytes d) with
  | none => none
  | some sharedXY => some (Keccak256 (big.Bytes sharedXY.1), none)

/-- Go `RecoverStealthPrivateKey` for the recipient scalar `d` on the curve `c`
and the ephemeral point `(x, y)`. -/
def RecoverStealthPrivateKey (Keccak256 : List Nat → List Nat) (c : elliptic.NilCurve)
    (d x y : Nat) : Outcome :=
  match GenerateSharedSecret Keccak256 c d x y with
  | none => Outcome.runtimeFailure
  | some (_, some err) => Outcome.returned none (some err)
  | some (sharedSecret, none) =>
    let s := big.SetBytes sharedSecret
    let stealthPrivKey := (d + s) % c.N
    Outcome.returned
      (some { D := stealthPrivKey, XY := c.ScalarBaseMult (big.Bytes stealthPrivKey) }) none

end privacy.withNil

/-- The small curve behind a library that, like the C backend of `crypto.S256()`,
returns nil for a scalar that is zero or not below the order 7. -/
def toy.rejectingCurve : elliptic.NilCurve where
  N := 7
  N_pos := by decide
  ScalarMult := fun x y k =>
    if big.SetBytes k = 0 ∨ 7 ≤ big.SetBytes k then none else some (toy.mul x y (big.SetBytes k))
  ScalarBaseMult := fun k =>
    if big.SetBytes k = 0 ∨ 7 ≤ big.SetBytes k then none else some (toy.mul 7 5 (big.SetBytes k))

/-! ## Lemmas -/

theorem big.foldr_bytesLE (fuel n : Nat) (h : n ≤ fuel) :
    (big.bytesLE fuel n).foldr (fun b acc => acc * 256 + b) 0 = n := by
  induction fuel generalizing n with
  | zero =>
    have h0 : n = 0 := by omega
    subst h0
    rfl
  | succ f ih =>
    unfold big.bytesLE
    by_cases hn : n = 0
    · simp [hn]
    · simp only [hn, if_false, List.foldr_cons]
      rw [ih (n / 256) (by omega)]
      omega

/-- Reading back: `SetBytes` returns the number whose `Bytes` it is given. -/
theorem big.SetBytes_Bytes (n : Nat) : big.SetBytes (big.Bytes n) = n := by
  unfold big.SetBytes big.Bytes
  rw [List.foldl_reverse]
  exact big.foldr_bytesLE n n (le_refl n)

theorem sanctions.foldl_AddAddress (l : List String) (d : sanctions.Detector) :
    (l.foldl (fun detector addr => detector.AddAddress addr) d).SanctionedAddresses
      = d.SanctionedAddresses ∪ l.toFinset := by
  induction l generalizing d with
  | nil => simp
  | cons a t ih =>
    rw [List.foldl_cons, ih]
    ext b
    simp [sanctions.Detector.AddAddress]

theorem sanctions.NewDetector_eq (l : List String) :
    (sanctions.NewDetector l).SanctionedAddresses = l.toFinset := by
  unfold sanctions.NewDetector
  rw [sanctions.foldl_AddAddress]
  simp

theorem sanctions.count_of_mem (s : Finset String) (a : String) (h : a ∈ s) :
    s.val.count a = 1 :=
  Multiset.count_eq_one_of_mem s.nodup h

/-! ### The small curve is lawful -/

theorem toy.add_table :
    ∀ i : Fin 7, ∀ j : Fin 7,
      toy.add (toy.mul 7 5 i.val).1 (toy.mul 7 5 i.val).2
          (toy.mul 7 5 j.val).1 (toy.mul 7 5 j.val).2
        = toy.mul 7 5 ((i.val + j.val) % 7) := by
  decide

theorem toy.mul_mod (k : Nat) : toy.mul 7 5 (k % 7) = toy.mul 7 5 k := by
  induction k with
  | zero => rfl
  | succ k ih =>
    have h1 := toy.add_table ⟨k % 7, Nat.mod_lt k (by decide)⟩ ⟨1, by decide⟩
    simp only [] at h1
    rw [ih] at h1
    have h2 : toy.mul 7 5 (k + 1) = toy.add (toy.mul 7 5 k).1 (toy.mul 7 5 k).2 7 5 := rfl
    have h3 : toy.mul 7 5 1 = (7, 5) := by decide
    rw [h3] at h1
    rw [h2, h1]
    congr 1
    omega

theorem toy.mul_add (a b : Nat) :
    toy.add (toy.mul 7 5 a).1 (toy.mul 7 5 a).2 (toy.mul 7 5 b).1 (toy.mul 7 5 b).2
      = toy.mul 7 5 (a + b) := by
  have h := toy.add_table ⟨a % 7, Nat.mod_lt a (by decide)⟩ ⟨b % 7, Nat.mod_lt b (by decide)⟩
  simp only [] at h
  rw [toy.mul_mod a, toy.mul_mod b] at h
  rw [h, ← toy.mul_mod (a + b)]
  congr 1
  omega

theorem toy.mul_mul (a k : Nat) :
    toy.mul (toy.mul 7 5 a).1 (toy.mul 7 5 a).2 k = toy.mul 7 5 (a * k) := by
  induction k with
  | zero => rfl
  | succ k ih =>
    have h2 : toy.mul (toy.mul 7 5 a).1 (toy.mul 7 5 a).2 (k + 1)
        = toy.add (toy.mul (toy.mul 7 5 a).1 (toy.mul 7 5 a).2 k).1
            (toy.mul (toy.mul 7 5 a).1 (toy.mul 7 5 a).2 k).2
            (toy.mul 7 5 a).1 (toy.mul 7 5 a).2 := rfl
    rw [h2, ih, toy.mul_add, Nat.mul_succ]

theorem toy.mulG_eq (k : Nat) : toy.curve.mulG k = toy.mul 7 5 k := by
  show toy.mul 7 5 (big.SetBytes (big.Bytes k)) = toy.mul 7 5 k
  rw [big.SetBytes_Bytes]

/-- The small curve satisfies the contract of `elliptic.Curve`. -/
theorem toy.curve_lawful : toy.curve.Lawful where
  base_mod := by
    intro k
    rw [toy.mulG_eq, toy.mulG_eq]
    exact toy.mul_mod k
  base_add := by
    intro a b
    rw [toy.mulG_eq, toy.mulG_eq, toy.mulG_eq]
    exact toy.mul_add a b
  mult_base := by
    intro a k
    rw [toy.mulG_eq, toy.mulG_eq]
    show toy.mul (toy.mul 7 5 a).1 (toy.mul 7 5 a).2 (big.SetBytes (big.Bytes k)) = _
    rw [big.SetBytes_Bytes]
    exact toy.mul_mul a k

/-! ## Stealth key engine -/

/-- What `GenerateStealthAddress` returns when the address is not sanctioned
and the random source yields the scalar `e`. -/
theorem privacy.generate_of_draw {ρ : Type} (lib : privacy.Lib ρ) (pm : privacy.PrivacyManager)
    (pubKey : ecdsa.PublicKey) (r r1 : ρ) (e : Nat)
    (hs : pm.Detector.IsSanctioned (lib.PubkeyToAddressHex pubKey) = false)
    (hr : lib.randReader r = (Except.ok e, r1)) :
    pm.GenerateStealthAddress lib pubKey r =
      ((some
          { Curve := lib.S256,
            X := (pubKey.Curve.Add pubKey.X pubKey.Y
              (pubKey.Curve.mulG (privacy.hashScalar lib pubKey.Curve pubKey.X pubKey.Y e)).1
              (pubKey.Curve.mulG (privacy.hashScalar lib pubKey.Curve pubKey.X pubKey.Y e)).2).1,
            Y := (pubKey.Curve.Add pubKey.X pubKey.Y
              (pubKey.Curve.mulG (privacy.hashScalar lib pubKey.Curve pubKey.X pubKey.Y e)).1
              (pubKey.Curve.mulG (privacy.hashScalar lib pubKey.Curve pubKey.X pubKey.Y e)).2).2 },
        some
          { PublicKey := { Curve := lib.S256, X := (lib.S256.mulG e).1, Y := (lib.S256.mulG e).2 },
            D := e },
        none), r1) := by
  simp [privacy.PrivacyManager.GenerateStealthAddress, privacy.GenerateKey, hs, hr,
    elliptic.Curve.mulG, privacy.hashScalar]

/-- What `RecoverStealthPrivateKey` returns. -/
theorem privacy.recover_eq {ρ : Type} (lib : privacy.Lib ρ) (pm : privacy.PrivacyManager)
    (recipientPriv : ecdsa.PrivateKey) (ephemeralPub : ecdsa.PublicKey) :
    pm.RecoverStealthPrivateKey lib recipientPriv ephemeralPub =
      (some
        { PublicKey :=
            { Curve := recipientPriv.PublicKey.Curve,
              X := (recipientPriv.PublicKey.Curve.mulG
                ((recipientPriv.D + privacy.hashScalar lib recipientPriv.PublicKey.Curve
                  ephemeralPub.X ephemeralPub.Y recipientPriv.D)
                    % recipientPriv.PublicKey.Curve.N)).1,
              Y := (recipientPriv.PublicKey.Curve.mulG
                ((recipientPriv.D + privacy.hashScalar lib recipientPriv.PublicKey.Curve
                  ephemeralPub.X ephemeralPub.Y recipientPriv.D)
                    % recipientPriv.PublicKey.Curve.N)).2 },
          D := (recipientPriv.D + privacy.hashScalar lib recipientPriv.PublicKey.Curve
            ephemeralPub.X ephemeralPub.Y recipientPriv.D) % recipientPriv.PublicKey.Curve.N },
        none) := by
  rfl

/-- Both sides of the exchange compute the same scalar `s`: for `P = d·G` and
`E = e·G` on a lawful curve, the hash of the x-coordinate of `e·P` equals the
hash of the x-coordinate of `d·E`. -/
theorem privacy.hashScalar_comm {ρ : Type} (lib : privacy.Lib ρ) (c : elliptic.Curve)
    (hl : c.Lawful) (d e : Nat) :
    privacy.hashScalar lib c (c.mulG d).1 (c.mulG d).2 e
      = privacy.hashScalar lib c (c.mulG e).1 (c.mulG e).2 d := by
  unfold privacy.hashScalar
  rw [hl.mult_base, hl.mult_base, Nat.mul_comm]

/-- C1. Round trip: on a lawful curve, for a recipient key pair `(d_r, P_r = d_r·G)`
whose address is not sanctioned and an ephemeral scalar `e` drawn from the random
source, `GenerateStealthAddress(P_r)` returns `(StealthPublic, e)` and
`RecoverStealthPrivateKey(d_r, e·G)` returns a key `d_s` with
`d_s·G = StealthPublic`, whose public point is `StealthPublic`; no bound on the
hash value `s` is assumed, so `s ≥ n` is included. -/
theorem privacy.stealth_round_trip {ρ : Type} (lib : privacy.Lib ρ)
    (pm pmR : privacy.PrivacyManager) (recipientPriv : ecdsa.PrivateKey)
    (pubKey : ecdsa.PublicKey) (r r1 : ρ) (e : Nat)
    (hl : lib.S256.Lawful)
    (hpc : recipientPriv.PublicKey.Curve = lib.S256)
    (hc : pubKey.Curve = lib.S256)
    (hP : (pubKey.X, pubKey.Y) = lib.S256.mulG recipientPriv.D)
    (hs : pm.Detector.IsSanctioned (lib.PubkeyToAddressHex pubKey) = false)
    (hr : lib.randReader r = (Except.ok e, r1)) :
    ∃ (stealthPub : ecdsa.PublicKey) (ephemeralPrivKey key : ecdsa.PrivateKey),
      pm.GenerateStealthAddress lib pubKey r
        = ((some stealthPub, some ephemeralPrivKey, none), r1)
      ∧ ephemeralPrivKey.D = e
      ∧ pmR.RecoverStealthPrivateKey lib recipientPriv
          { Curve := lib.S256, X := (lib.S256.mulG e).1, Y := (lib.S256.mulG e).2 }
        = (some key, none)
      ∧ lib.S256.mulG key.D = (stealthPub.X, stealthPub.Y)
      ∧ key.PublicKey = stealthPub := by
  refine ⟨_, _, _, privacy.generate_of_draw lib pm pubKey r r1 e hs hr, rfl,
    privacy.recover_eq lib pmR recipientPriv _, ?_, ?_⟩
  all_goals
    have hx : pubKey.X = (lib.S256.mulG recipientPriv.D).1 := congrArg Prod.fst hP
    have hy : pubKey.Y = (lib.S256.mulG recipientPriv.D).2 := congrArg Prod.snd hP
    simp only [hpc, hc, hx, hy]
    rw [privacy.hashScalar_comm lib lib.S256 hl recipientPriv.D e, hl.base_add, hl.base_mod]

/-- Witness for C1 on the small curve: recipient scalar 3 with `P_r = 3·G = (11, 8)`,
ephemeral scalar 5. -/
theorem privacy.stealth_round_trip_witness :
    toy.curve.Lawful
    ∧ ((11, 8) : Nat × Nat) = toy.lib.S256.mulG 3
    ∧ toy.pm.Detector.IsSanctioned (toy.lib.PubkeyToAddressHex ⟨toy.curve, 11, 8⟩) = false
    ∧ toy.lib.randReader [Except.ok 5] = (Except.ok 5, [])
    ∧ ∃ (stealthPub : ecdsa.PublicKey) (ephemeralPrivKey key : ecdsa.PrivateKey),
        toy.pm.GenerateStealthAddress toy.lib ⟨toy.curve, 11, 8⟩ [Except.ok 5]
          = ((some stealthPub, some ephemeralPrivKey, none), [])
        ∧ ephemeralPrivKey.D = 5
        ∧ toy.pm.RecoverStealthPrivateKey toy.lib ⟨⟨toy.curve, 11, 8⟩, 3⟩
            { Curve := toy.lib.S256, X := (toy.lib.S256.mulG 5).1, Y := (toy.lib.S256.mulG 5).2 }
          = (some key, none)
        ∧ toy.lib.S256.mulG key.D = (stealthPub.X, stealthPub.Y)
        ∧ key.PublicKey = stealthPub :=
  ⟨toy.curve_lawful, by decide, by decide, rfl,
    privacy.stealth_round_trip toy.lib toy.pm toy.pm ⟨⟨toy.curve, 11, 8⟩, 3⟩ ⟨toy.curve, 11, 8⟩
      [Except.ok 5] [] 5 toy.curve_lawful rfl rfl (by decide) (by decide) rfl⟩

/-- C2. Screening gate: when the address derived from the recipient public key is
in the detector's set, `GenerateStealthAddress` returns `ErrSanctionedAddress`
with no stealth public key and no ephemeral key, and the random source is left
as it was: whatever reader is installed, it is not called. -/
theorem privacy.generate_sanctioned {ρ : Type} (lib : privacy.Lib ρ)
    (pm : privacy.PrivacyManager) (pubKey : ecdsa.PublicKey) (r : ρ)
    (hs : pm.Detector.IsSanctioned (lib.PubkeyToAddressHex pubKey) = true) :
    ∀ reader : ρ → Except privacy.Error Nat × ρ,
      pm.GenerateStealthAddress
          { S256 := lib.S256, Keccak256 := lib.Keccak256,
            PubkeyToAddressHex := lib.PubkeyToAddressHex, randReader := reader } pubKey r
        = ((none, none, some privacy.Error.ErrSanctionedAddress), r) := by
  intro reader
  simp [privacy.PrivacyManager.GenerateStealthAddress, hs]

/-- Witness for C2: the point `(8, 5)` has the sanctioned address `0xbad`. -/
theorem privacy.generate_sanctioned_witness :
    toy.pm.Detector.IsSanctioned (toy.lib.PubkeyToAddressHex ⟨toy.curve, 8, 5⟩) = true
    ∧ toy.pm.GenerateStealthAddress toy.lib ⟨toy.curve, 8, 5⟩ [Except.ok 5]
        = ((none, none, some privacy.Error.ErrSanctionedAddress), [Except.ok 5]) :=
  ⟨by decide,
    privacy.generate_sanctioned toy.lib toy.pm ⟨toy.curve, 8, 5⟩ [Except.ok 5] (by decide)
      toy.reader⟩

/-- C3. `RecoverStealthPrivateKey` returns, with a nil error, the pair
`(d_s, d_s·G)` where `d_s = (d_r + s) mod n` and `s` is the hash of the
x-coordinate of `d_r·E` read as a big-endian integer; the public point of the
returned key is the one computed from the returned scalar. -/
theorem privacy.recover_returns {ρ : Type} (lib : privacy.Lib ρ) (pm : privacy.PrivacyManager)
    (recipientPriv : ecdsa.PrivateKey) (ephemeralPub : ecdsa.PublicKey) :
    ∃ key : ecdsa.PrivateKey,
      pm.RecoverStealthPrivateKey lib recipientPriv ephemeralPub = (some key, none)
      ∧ key.D = (recipientPriv.D + privacy.hashScalar lib recipientPriv.PublicKey.Curve
          ephemeralPub.X ephemeralPub.Y recipientPriv.D) % recipientPriv.PublicKey.Curve.N
      ∧ (key.PublicKey.X, key.PublicKey.Y)
          = recipientPriv.PublicKey.Curve.ScalarBaseMult (big.Bytes key.D)
      ∧ key.PublicKey.Curve = recipientPriv.PublicKey.Curve :=
  ⟨_, privacy.recover_eq lib pm recipientPriv ephemeralPub, rfl, rfl, rfl⟩

/-- C4. When the recipient's address is not sanctioned and the random source
yields the scalar `e`, `GenerateStealthAddress` returns `(P_r + s·G, e)` with a
nil error, where `s` is the hash of the x-coordinate of `e·P_r` read as a
big-endian integer; the bytes of `s` itself, not of `s mod n`, are handed to
`ScalarBaseMult`. -/
theorem privacy.generate_returns {ρ : Type} (lib : privacy.Lib ρ) (pm : privacy.PrivacyManager)
    (pubKey : ecdsa.PublicKey) (r r1 : ρ) (e : Nat)
    (hs : pm.Detector.IsSanctioned (lib.PubkeyToAddressHex pubKey) = false)
    (hr : lib.randReader r = (Except.ok e, r1)) :
    ∃ (stealthPub : ecdsa.PublicKey) (ephemeralPrivKey : ecdsa.PrivateKey) (sG : Nat × Nat),
      pm.GenerateStealthAddress lib pubKey r
        = ((some stealthPub, some ephemeralPrivKey, none), r1)
      ∧ ephemeralPrivKey.D = e
      ∧ sG = pubKey.Curve.ScalarBaseMult
          (big.Bytes (privacy.hashScalar lib pubKey.Curve pubKey.X pubKey.Y e))
      ∧ (stealthPub.X, stealthPub.Y) = pubKey.Curve.Add pubKey.X pubKey.Y sG.1 sG.2
      ∧ stealthPub.Curve = lib.S256 :=
  ⟨_, _, _, privacy.generate_of_draw lib pm pubKey r r1 e hs hr, rfl, rfl, rfl, rfl⟩

/-- Witness for C4: recipient point `G = (7, 5)`, ephemeral scalar 5; the hash
value is 43, above the order 7. -/
theorem privacy.generate_returns_witness :
    toy.pm.Detector.IsSanctioned (toy.lib.PubkeyToAddressHex ⟨toy.curve, 7, 5⟩) = false
    ∧ toy.lib.randReader [Except.ok 5] = (Except.ok 5, [])
    ∧ privacy.hashScalar toy.lib toy.curve 7 5 5 = 43
    ∧ ∃ (stealthPub : ecdsa.PublicKey) (ephemeralPrivKey : ecdsa.PrivateKey) (sG : Nat × Nat),
        toy.pm.GenerateStealthAddress toy.lib ⟨toy.curve, 7, 5⟩ [Except.ok 5]
          = ((some stealthPub, some ephemeralPrivKey, none), [])
        ∧ ephemeralPrivKey.D = 5
        ∧ sG = toy.curve.ScalarBaseMult (big.Bytes (privacy.hashScalar toy.lib toy.curve 7 5 5))
        ∧ (stealthPub.X, stealthPub.Y) = toy.curve.Add 7 5 sG.1 sG.2
        ∧ stealthPub.Curve = toy.lib.S256 :=
  ⟨by decide, rfl, by decide,
    privacy.generate_returns toy.lib toy.pm ⟨toy.curve, 7, 5⟩ [Except.ok 5] [] 5
      (by decide) rfl⟩

/-- What `RecoverStealthPrivateKey` does over a curve library that may return
nil: a run-time failure when `ScalarMult` returns nil, otherwise the key with
scalar `(d + s) mod n` and a nil error. -/
theorem privacy.withNil.recover_outcome (Keccak256 : List Nat → List Nat)
    (c : elliptic.NilCurve) (d x y : Nat) :
    (c.ScalarMult x y (big.Bytes d) = none
      ∧ privacy.withNil.RecoverStealthPrivateKey Keccak256 c d x y
          = privacy.withNil.Outcome.runtimeFailure)
    ∨ (∃ sharedXY : Nat × Nat, c.ScalarMult x y (big.Bytes d) = some sharedXY
      ∧ privacy.withNil.RecoverStealthPrivateKey Keccak256 c d x y
          = privacy.withNil.Outcome.returned
              (some
                { D := (d + big.SetBytes (Keccak256 (big.Bytes sharedXY.1))) % c.N,
                  XY := c.ScalarBaseMult (big.Bytes
                    ((d + big.SetBytes (Keccak256 (big.Bytes sharedXY.1))) % c.N)) })
              none) := by
  cases h : c.ScalarMult x y (big.Bytes d) with
  | none =>
    left
    simp [privacy.withNil.RecoverStealthPrivateKey, privacy.withNil.GenerateSharedSecret, h]
  | some sharedXY =>
    right
    refine ⟨sharedXY, rfl, ?_⟩
    simp [privacy.withNil.RecoverStealthPrivateKey, privacy.withNil.GenerateSharedSecret, h]

/-- Over a curve library that always returns coordinates, the recovery with nil
results returns what `RecoverStealthPrivateKey` returns. -/
theorem privacy.withNil.recover_total {ρ : Type} (lib : privacy.Lib ρ)
    (pm : privacy.PrivacyManager) (recipientPriv : ecdsa.PrivateKey)
    (ephemeralPub : ecdsa.PublicKey) :
    privacy.withNil.RecoverStealthPrivateKey lib.Keccak256
        recipientPriv.PublicKey.Curve.toNilCurve recipientPriv.D ephemeralPub.X ephemeralPub.Y
      = privacy.withNil.Outcome.returned
          ((pm.RecoverStealthPrivateKey lib recipientPriv ephemeralPub).1.map
            (fun key => { D := key.D, XY := some (key.PublicKey.X, key.PublicKey.Y) }))
          (pm.RecoverStealthPrivateKey lib recipientPriv ephemeralPub).2 := by
  rw [privacy.recover_eq]
  rfl

set_option maxRecDepth 100000 in
/-- C5, as stated, fails: with the hash Keccak-256 on the small curve of order 7
and the ephemeral point `(8, 8)`, `RecoverStealthPrivateKey` called with
recipient scalar 0, and with 7 (the order), returns no error.  Over the library
that returns nil for these scalars the call ends in a run-time failure; over the
library that returns coordinates it returns the key with scalar 4 and a nil
error. -/
theorem privacy.recover_degenerate_scalar_no_error :
    privacy.withNil.RecoverStealthPrivateKey keccak.Keccak256 toy.rejectingCurve 0 8 8
      = privacy.withNil.Outcome.runtimeFailure
    ∧ privacy.withNil.RecoverStealthPrivateKey keccak.Keccak256 toy.rejectingCurve
        toy.rejectingCurve.N 8 8
      = privacy.withNil.Outcome.runtimeFailure
    ∧ privacy.withNil.RecoverStealthPrivateKey keccak.Keccak256 toy.curve.toNilCurve 0 8 8
      = privacy.withNil.Outcome.returned (some { D := 4, XY := some (11, 5) }) none
    ∧ privacy.withNil.RecoverStealthPrivateKey keccak.Keccak256 toy.curve.toNilCurve
        toy.curve.N 8 8
      = privacy.withNil.Outcome.returned (some { D := 4, XY := some (11, 5) }) none := by
  refine ⟨by decide, by decide, by decide, by decide⟩

/-- C5, amended. `RecoverStealthPrivateKey` has no check of the recipient scalar
and returns no error: called with recipient scalar 0, or with `n`, and any
ephemeral point, it never returns a non-nil error; either the curve library
returns nil for the shared point and the call ends in a run-time failure, or the
call returns a key with a nil error. -/
theorem privacy.recover_returns_no_error (Keccak256 : List Nat → List Nat)
    (c : elliptic.NilCurve) (x y : Nat) :
    (∀ (key : Option privacy.withNil.Key) (err : privacy.Error),
      privacy.withNil.RecoverStealthPrivateKey Keccak256 c 0 x y
        ≠ privacy.withNil.Outcome.returned key (some err))
    ∧ (∀ (key : Option privacy.withNil.Key) (err : privacy.Error),
      privacy.withNil.RecoverStealthPrivateKey Keccak256 c c.N x y
        ≠ privacy.withNil.Outcome.returned key (some err))
    ∧ ((c.ScalarMult x y (big.Bytes 0) = none
          ∧ privacy.withNil.RecoverStealthPrivateKey Keccak256 c 0 x y
              = privacy.withNil.Outcome.runtimeFailure)
        ∨ ∃ key : privacy.withNil.Key,
            privacy.withNil.RecoverStealthPrivateKey Keccak256 c 0 x y
              = privacy.withNil.Outcome.returned (some key) none)
    ∧ ((c.ScalarMult x y (big.Bytes c.N) = none
          ∧ privacy.withNil.RecoverStealthPrivateKey Keccak256 c c.N x y
              = privacy.withNil.Outcome.runtimeFailure)
        ∨ ∃ key : privacy.withNil.Key,
            privacy.withNil.RecoverStealthPrivateKey Keccak256 c c.N x y
              = privacy.withNil.Outcome.returned (some key) none) := by
  have hgen : ∀ d : Nat,
      (∀ (key : Option privacy.withNil.Key) (err : privacy.Error),
        privacy.withNil.RecoverStealthPrivateKey Keccak256 c d x y
          ≠ privacy.withNil.Outcome.returned key (some err))
      ∧ ((c.ScalarMult x y (big.Bytes d) = none
            ∧ privacy.withNil.RecoverStealthPrivateKey Keccak256 c d x y
                = privacy.withNil.Outcome.runtimeFailure)
          ∨ ∃ key : privacy.withNil.Key,
              privacy.withNil.RecoverStealthPrivateKey Keccak256 c d x y
                = privacy.withNil.Outcome.returned (some key) none) := by
    intro d
    rcases privacy.withNil.recover_outcome Keccak256 c d x y with ⟨hn, ho⟩ | ⟨p, _, ho⟩
    · refine ⟨fun key err h => ?_, Or.inl ⟨hn, ho⟩⟩
      rw [ho] at h
      cases h
    · refine ⟨fun key err h => ?_, Or.inr ⟨_, ho⟩⟩
      rw [ho] at h
      cases h
  exact ⟨(hgen 0).1, (hgen c.N).1, (hgen 0).2, (hgen c.N).2⟩

/-- C6, as stated, fails: on the small curve `GenerateStealthAddress` called with
the point `(1, 1)`, which is not on `y² = x³ + 7` modulo 13, and with the point
at infinity `(0, 0)`, returns a stealth key and an ephemeral key with a nil
error. -/
theorem privacy.generate_invalid_point_accepted :
    (1 * 1) % 13 ≠ (1 * 1 * 1 + 7) % 13
    ∧ (toy.pm.GenerateStealthAddress toy.lib ⟨toy.curve, 1, 1⟩ [Except.ok 5]).1.2.2 = none
    ∧ (toy.pm.GenerateStealthAddress toy.lib ⟨toy.curve, 1, 1⟩ [Except.ok 5]).1.1.isSome = true
    ∧ (toy.pm.GenerateStealthAddress toy.lib ⟨toy.curve, 1, 1⟩ [Except.ok 5]).1.2.1.isSome = true
    ∧ (toy.pm.GenerateStealthAddress toy.lib ⟨toy.curve, 0, 0⟩ [Except.ok 5]).1.2.2 = none
    ∧ (toy.pm.GenerateStealthAddress toy.lib ⟨toy.curve, 0, 0⟩ [Except.ok 5]).1.1.isSome = true
    ∧ (toy.pm.GenerateStealthAddress toy.lib ⟨toy.curve, 0, 0⟩ [Except.ok 5]).1.2.1.isSome = true := by
  refine ⟨by decide, ?_, ?_, ?_, ?_, ?_, ?_⟩ <;> rfl

/-- C6, amended. `GenerateStealthAddress` does not examine the recipient point:
for every point, on the curve or not, the call returns a nil error exactly when
the address is not sanctioned and the random source yields a scalar, and it
returns a stealth public key and an ephemeral key exactly when the error is nil. -/
theorem privacy.generate_no_point_check {ρ : Type} (lib : privacy.Lib ρ)
    (pm : privacy.PrivacyManager) (pubKey : ecdsa.PublicKey) (r : ρ) :
    ((pm.GenerateStealthAddress lib pubKey r).1.2.2 = none
      ↔ (pm.Detector.IsSanctioned (lib.PubkeyToAddressHex pubKey) = false
          ∧ ∃ e : Nat, (lib.randReader r).1 = Except.ok e))
    ∧ ((pm.GenerateStealthAddress lib pubKey r).1.1.isSome = true
      ↔ (pm.GenerateStealthAddress lib pubKey r).1.2.2 = none)
    ∧ ((pm.GenerateStealthAddress lib pubKey r).1.2.1.isSome = true
      ↔ (pm.GenerateStealthAddress lib pubKey r).1.2.2 = none) := by
  cases hs : pm.Detector.IsSanctioned (lib.PubkeyToAddressHex pubKey) with
  | true => simp [privacy.PrivacyManager.GenerateStealthAddress, hs]
  | false =>
    rcases hr : lib.randReader r with ⟨res, r1⟩
    cases res with
    | error err =>
      simp [privacy.PrivacyManager.GenerateStealthAddress, privacy.GenerateKey, hs, hr]
    | ok e =>
      rw [privacy.generate_of_draw lib pm pubKey r r1 e hs hr]
      simp

/-- C7. When the recipient is not sanctioned and the random source fails with an
error, `GenerateStealthAddress` returns that error with neither a stealth public
key nor an ephemeral key; the source is left in the state after the one failed
draw. -/
theorem privacy.generate_reader_failure {ρ : Type} (lib : privacy.Lib ρ)
    (pm : privacy.PrivacyManager) (pubKey : ecdsa.PublicKey) (r r1 : ρ) (err : privacy.Error)
    (hs : pm.Detector.IsSanctioned (lib.PubkeyToAddressHex pubKey) = false)
    (hr : lib.randReader r = (Except.error err, r1)) :
    pm.GenerateStealthAddress lib pubKey r = ((none, none, some err), r1) := by
  simp [privacy.PrivacyManager.GenerateStealthAddress, privacy.GenerateKey, hs, hr]

/-- Witness for C7: the source fails once and would then yield 5; the call
returns the failure and the outcome 5 is not consumed. -/
theorem privacy.generate_reader_failure_witness :
    toy.pm.Detector.IsSanctioned (toy.lib.PubkeyToAddressHex ⟨toy.curve, 7, 5⟩) = false
    ∧ toy.lib.randReader [Except.error (privacy.Error.readerFailure "no entropy"), Except.ok 5]
        = (Except.error (privacy.Error.readerFailure "no entropy"), [Except.ok 5])
    ∧ toy.pm.GenerateStealthAddress toy.lib ⟨toy.curve, 7, 5⟩
          [Except.error (privacy.Error.readerFailure "no entropy"), Except.ok 5]
        = ((none, none, some (privacy.Error.readerFailure "no entropy")), [Except.ok 5]) :=
  ⟨by decide, rfl,
    privacy.generate_reader_failure toy.lib toy.pm ⟨toy.curve, 7, 5⟩ _ [Except.ok 5]
      (privacy.Error.readerFailure "no entropy") (by decide) rfl⟩

/-! ## Sanction detector -/

/-- C8. For every list of strings, `NewDetector` returns a detector whose set is
exactly the set of elements of the list: `IsSanctioned a` holds if and only if
`a` occurs in the list, and the set holds each such address once (and no
other). -/
theorem sanctions.NewDetector_exact (l : List String) :
    (sanctions.NewDetector l).SanctionedAddresses = l.toFinset
    ∧ (∀ a : String, (sanctions.NewDetector l).IsSanctioned a = true ↔ a ∈ l)
    ∧ (∀ a : String,
        (sanctions.NewDetector l).SanctionedAddresses.val.count a = if a ∈ l then 1 else 0) := by
  refine ⟨sanctions.NewDetector_eq l, fun a => ?_, fun a => ?_⟩
  · simp [sanctions.Detector.IsSanctioned, sanctions.NewDetector_eq]
  · rw [sanctions.NewDetector_eq]
    by_cases h : a ∈ l
    · rw [if_pos h]
      exact sanctions.count_of_mem _ a (List.mem_toFinset.mpr h)
    · rw [if_neg h]
      exact Multiset.count_eq_zero_of_not_mem (fun hm => h (List.mem_toFinset.mp hm))

/-- C9. `AddAddress` is idempotent: adding `a` twice gives the same set as adding
it once, that set holds `a` exactly once, and `AddAddress(a)` leaves a detector
unchanged exactly when `a` is already present. -/
theorem sanctions.AddAddress_idempotent (d : sanctions.Detector) (a : String) :
    (d.AddAddress a).AddAddress a = d.AddAddress a
    ∧ (d.AddAddress a).SanctionedAddresses.val.count a = 1
    ∧ (d.AddAddress a = d ↔ d.IsSanctioned a = true) := by
  refine ⟨?_, ?_, ?_⟩
  · simp [sanctions.Detector.AddAddress]
  · exact sanctions.count_of_mem _ a (Finset.mem_insert_self a _)
  · cases d with
    | mk s => simp [sanctions.Detector.AddAddress, sanctions.Detector.IsSanctioned]

/-- C10. `RemoveAddress` returns no error; it leaves the set unchanged exactly
when `a` is absent, and in every case the result holds the addresses of the
original set other than `a`: when `a` is present one address, `a`, is removed. -/
theorem sanctions.RemoveAddress_frame (d : sanctions.Detector) (a : String) :
    (d.RemoveAddress a = d ↔ d.IsSanctioned a = false)
    ∧ (∀ b : String,
        (d.RemoveAddress a).IsSanctioned b = (decide (b ≠ a) && d.IsSanctioned b))
    ∧ (d.RemoveAddress a).SanctionedAddresses.card
        = d.SanctionedAddresses.card - (if d.IsSanctioned a = true then 1 else 0) := by
  cases d with
  | mk s =>
    refine ⟨?_, fun b => ?_, ?_⟩
    · simp [sanctions.Detector.RemoveAddress, sanctions.Detector.IsSanctioned]
    · simp [sanctions.Detector.RemoveAddress, sanctions.Detector.IsSanctioned]
    · by_cases h : a ∈ s
      · simp [sanctions.Detector.RemoveAddress, sanctions.Detector.IsSanctioned, h]
      · simp [sanctions.Detector.RemoveAddress, sanctions.Detector.IsSanctioned, h]

/-- C11. `IsSanctioned` reflects the latest write: after `AddAddress(a)` it is
true at `a`, after `RemoveAddress(a)` it is false at `a`, and at every other
address `b` it is the same before and after either write.  `IsSanctioned`
returns a boolean only; the set is not touched by it. -/
theorem sanctions.IsSanctioned_after_write (d : sanctions.Detector) (a b : String)
    (h : b ≠ a) :
    (d.AddAddress a).IsSanctioned a = true
    ∧ (d.RemoveAddress a).IsSanctioned a = false
    ∧ (d.AddAddress a).IsSanctioned b = d.IsSanctioned b
    ∧ (d.RemoveAddress a).IsSanctioned b = d.IsSanctioned b := by
  cases d with
  | mk s =>
    refine ⟨?_, ?_, ?_, ?_⟩
    · simp [sanctions.Detector.AddAddress, sanctions.Detector.IsSanctioned]
    · simp [sanctions.Detector.RemoveAddress, sanctions.Detector.IsSanctioned]
    · simp [sanctions.Detector.AddAddress, sanctions.Detector.IsSanctioned, h]
    · simp [sanctions.Detector.RemoveAddress, sanctions.Detector.IsSanctioned, h]

/-- Witness for C11: a detector holding `0xbad`, written at `0xnew`, read at
`0xbad`. -/
theorem sanctions.IsSanctioned_after_write_witness :
    "0xbad" ≠ "0xnew"
    ∧ ((sanctions.NewDetector ["0xbad"]).AddAddress "0xnew").IsSanctioned "0xnew" = true
    ∧ ((sanctions.NewDetector ["0xbad"]).RemoveAddress "0xnew").IsSanctioned "0xnew" = false
    ∧ ((sanctions.NewDetector ["0xbad"]).AddAddress "0xnew").IsSanctioned "0xbad"
        = (sanctions.NewDetector ["0xbad"]).IsSanctioned "0xbad"
    ∧ ((sanctions.NewDetector ["0xbad"]).RemoveAddress "0xnew").IsSanctioned "0xbad"
        = (sanctions.NewDetector ["0xbad"]).IsSanctioned "0xbad" :=
  ⟨by decide,
    sanctions.IsSanctioned_after_write (sanctions.NewDetector ["0xbad"]) "0xnew" "0xbad"
      (by decide)⟩

/-- C12. Recovery is a function of the recipient key, the ephemeral point and the
hash alone: the same inputs give the same key and public point under any
manager (any detector contents), any random source and any address function. -/
theorem privacy.recover_deterministic {ρ σ : Type} (lib : privacy.Lib ρ)
    (pm1 pm2 : privacy.PrivacyManager) (c : elliptic.Curve)
    (addr : ecdsa.PublicKey → String) (reader : σ → Except privacy.Error Nat × σ)
    (recipientPriv : ecdsa.PrivateKey) (ephemeralPub : ecdsa.PublicKey) :
    pm2.RecoverStealthPrivateKey
        ({ S256 := c, Keccak256 := lib.Keccak256, PubkeyToAddressHex := addr,
           randReader := reader } : privacy.Lib σ) recipientPriv ephemeralPub
      = pm1.RecoverStealthPrivateKey lib recipientPriv ephemeralPub := by
  rw [privacy.recover_eq, privacy.recover_eq]
  rfl

/-- C14. Shared-secret agreement on a lawful curve `c`: for the recipient pair
`(d, P = d·G)` and the ephemeral pair `(e, E = e·G)`, `GenerateSharedSecret(d, E)`
returns, with a nil error, the same bytes as the secret the sender derives from
`e` and `P`, and `GenerateStealthAddress` builds the stealth point from that
secret.  Both sides hash `Bytes` of the shared x-coordinate, the encoding
without leading zero bytes. -/
theorem privacy.shared_secret_agreement {ρ : Type} (lib : privacy.Lib ρ)
    (pmS pmR : privacy.PrivacyManager) (c : elliptic.Curve) (d e : Nat) (r r1 : ρ)
    (hl : c.Lawful)
    (hs : pmS.Detector.IsSanctioned
      (lib.PubkeyToAddressHex ⟨c, (c.mulG d).1, (c.mulG d).2⟩) = false)
    (hr : lib.randReader r = (Except.ok e, r1)) :
    pmR.GenerateSharedSecret lib ⟨⟨c, (c.mulG d).1, (c.mulG d).2⟩, d⟩
        ⟨c, (c.mulG e).1, (c.mulG e).2⟩
      = (privacy.senderSharedSecret lib ⟨c, (c.mulG d).1, (c.mulG d).2⟩ e, none)
    ∧ ∃ (stealthPub : ecdsa.PublicKey) (ephemeralPrivKey : ecdsa.PrivateKey),
        pmS.GenerateStealthAddress lib ⟨c, (c.mulG d).1, (c.mulG d).2⟩ r
          = ((some stealthPub, some ephemeralPrivKey, none), r1)
        ∧ ephemeralPrivKey.D = e
        ∧ (stealthPub.X, stealthPub.Y)
            = c.Add (c.mulG d).1 (c.mulG d).2
                (c.mulG (big.SetBytes
                  (privacy.senderSharedSecret lib ⟨c, (c.mulG d).1, (c.mulG d).2⟩ e))).1
                (c.mulG (big.SetBytes
                  (privacy.senderSharedSecret lib ⟨c, (c.mulG d).1, (c.mulG d).2⟩ e))).2 := by
  refine ⟨?_, _, _, privacy.generate_of_draw lib pmS _ r r1 e hs hr, rfl, rfl⟩
  show (lib.Keccak256 (big.Bytes (c.ScalarMult (c.mulG e).1 (c.mulG e).2 (big.Bytes d)).1), none)
    = (lib.Keccak256 (big.Bytes (c.ScalarMult (c.mulG d).1 (c.mulG d).2 (big.Bytes e)).1), none)
  rw [hl.mult_base, hl.mult_base, Nat.mul_comm]

/-- Witness for C14 on the small curve: recipient scalar 3, ephemeral scalar 5. -/
theorem privacy.shared_secret_agreement_witness :
    toy.curve.Lawful
    ∧ toy.pm.Detector.IsSanctioned (toy.lib.PubkeyToAddressHex
        ⟨toy.curve, (toy.curve.mulG 3).1, (toy.curve.mulG 3).2⟩) = false
    ∧ toy.lib.randReader [Except.ok 5] = (Except.ok 5, [])
    ∧ toy.pm.GenerateSharedSecret toy.lib
          ⟨⟨toy.curve, (toy.curve.mulG 3).1, (toy.curve.mulG 3).2⟩, 3⟩
          ⟨toy.curve, (toy.curve.mulG 5).1, (toy.curve.mulG 5).2⟩
        = (privacy.senderSharedSecret toy.lib
            ⟨toy.curve, (toy.curve.mulG 3).1, (toy.curve.mulG 3).2⟩ 5, none)
    ∧ privacy.senderSharedSecret toy.lib
        ⟨toy.curve, (toy.curve.mulG 3).1, (toy.curve.mulG 3).2⟩ 5 = [38] :=
  ⟨toy.curve_lawful, by decide, rfl,
    (privacy.shared_secret_agreement toy.lib toy.pm toy.pm toy.curve 3 5 [Except.ok 5] []
      toy.curve_lawful (by decide) rfl).1,
    by decide⟩

set_option maxRecDepth 100000 in
/-- C15 fails on the code: with the hash Keccak-256, on the curve of order 7 the
valid recipient scalar 2 (`1 ≤ 2 < 7`) and the ephemeral point `5·G = (8, 8)`
give the shared point `3·G = (11, 8)`, a hash value congruent to 5 modulo 7, and
`RecoverStealthPrivateKey` returns, with a nil error, the key whose scalar is
`(2 + s) mod 7 = 0`; over the library that returns nil for the scalar 0 the
scalar is 0 as well and the public point is nil. -/
theorem privacy.recover_zero_scalar_keccak :
    1 ≤ 2 ∧ 2 < toy.curve.N
    ∧ toy.curve.mulG 5 = (8, 8)
    ∧ toy.curve.ScalarMult 8 8 (big.Bytes 2) = (11, 8)
    ∧ privacy.hashScalar toy.keccakLib toy.curve 8 8 2 % 7 = 5
    ∧ (toy.pm.RecoverStealthPrivateKey toy.keccakLib ⟨⟨toy.curve, 8, 5⟩, 2⟩
        ⟨toy.curve, 8, 8⟩).2 = none
    ∧ (toy.pm.RecoverStealthPrivateKey toy.keccakLib ⟨⟨toy.curve, 8, 5⟩, 2⟩
        ⟨toy.curve, 8, 8⟩).1.map (fun key => (key.D, key.PublicKey.X, key.PublicKey.Y))
        = some (0, 0, 0)
    ∧ privacy.withNil.RecoverStealthPrivateKey keccak.Keccak256 toy.rejectingCurve 2 8 8
        = privacy.withNil.Outcome.returned (some { D := 0, XY := none }) none := by
  refine ⟨by decide, by decide, by decide, by decide, by decide, rfl, by decide, by decide⟩

/-- The range of the recovered scalar: the scalar `d_s` of the key returned by
`RecoverStealthPrivateKey` satisfies `d_s < n`, and `d_s = 0` exactly when `n`
divides `d_r + s`; so `1 ≤ d_s` holds exactly when `d_r + s` is not a multiple
of `n`. -/
theorem privacy.recover_scalar_range {ρ : Type} (lib : privacy.Lib ρ)
    (pm : privacy.PrivacyManager) (recipientPriv : ecdsa.PrivateKey)
    (ephemeralPub : ecdsa.PublicKey) :
    ∃ key : ecdsa.PrivateKey,
      pm.RecoverStealthPrivateKey lib recipientPriv ephemeralPub = (some key, none)
      ∧ key.D < recipientPriv.PublicKey.Curve.N
      ∧ (key.D = 0 ↔ recipientPriv.PublicKey.Curve.N ∣
          recipientPriv.D + privacy.hashScalar lib recipientPriv.PublicKey.Curve
            ephemeralPub.X ephemeralPub.Y recipientPriv.D)
      ∧ (1 ≤ key.D ↔ ¬ recipientPriv.PublicKey.Curve.N ∣
          recipientPriv.D + privacy.hashScalar lib recipientPriv.PublicKey.Curve
            ephemeralPub.X ephemeralPub.Y recipientPriv.D) := by
  refine ⟨_, privacy.recover_eq lib pm recipientPriv ephemeralPub, ?_, ?_, ?_⟩
  · exact Nat.mod_lt _ recipientPriv.PublicKey.Curve.N_pos
  · exact Nat.dvd_iff_mod_eq_zero.symm
  · rw [Nat.dvd_iff_mod_eq_zero]
    exact Nat.one_le_iff_ne_zero

/-- C16. Matching is string equality: `IsSanctioned a` holds exactly when the
string `a` itself is in the set.  For a list entry that differs from the address
of the recipient only in letter case, the detector holding the entry reports the
address as not sanctioned, and `GenerateStealthAddress` is not blocked: when the
random source yields a scalar it returns a nil error. -/
theorem sanctions.IsSanctioned_case_sensitive {ρ : Type} (lib : privacy.Lib ρ)
    (pubKey : ecdsa.PublicKey) (entry : String) (r r1 : ρ) (e : Nat)
    (hne : entry ≠ lib.PubkeyToAddressHex pubKey)
    (_hcase : sanctions.sameUpToCase entry (lib.PubkeyToAddressHex pubKey))
    (hr : lib.randReader r = (Except.ok e, r1)) :
    (∀ (d : sanctions.Detector) (a : String),
      d.IsSanctioned a = true ↔ a ∈ d.SanctionedAddresses)
    ∧ (sanctions.NewDetector [entry]).IsSanctioned entry = true
    ∧ (sanctions.NewDetector [entry]).IsSanctioned (lib.PubkeyToAddressHex pubKey) = false
    ∧ ((privacy.NewPrivacyManager (sanctions.NewDetector [entry])).GenerateStealthAddress
        lib pubKey r).1.2.2 = none := by
  have hmem : ∀ a : String, (sanctions.NewDetector [entry]).IsSanctioned a = decide (a = entry) := by
    intro a
    simp [sanctions.Detector.IsSanctioned, sanctions.NewDetector_eq]
  have hfalse : (sanctions.NewDetector [entry]).IsSanctioned (lib.PubkeyToAddressHex pubKey)
      = false := by
    rw [hmem]
    exact decide_eq_false (fun h => hne h.symm)
  refine ⟨fun d a => ?_, ?_, hfalse, ?_⟩
  · simp [sanctions.Detector.IsSanctioned]
  · rw [hmem]
    exact decide_eq_true rfl
  · have hgen := privacy.generate_of_draw lib
      (privacy.NewPrivacyManager (sanctions.NewDetector [entry])) pubKey r r1 e hfalse hr
    rw [hgen]

/-- Witness for C16: the address function returns the mixed-case `0xAbC`, the
list holds the lowercase `0xabc`. -/
theorem sanctions.IsSanctioned_case_sensitive_witness :
    "0xabc" ≠ "0xAbC"
    ∧ sanctions.sameUpToCase "0xabc" "0xAbC"
    ∧ (sanctions.NewDetector ["0xabc"]).IsSanctioned "0xabc" = true
    ∧ (sanctions.NewDetector ["0xabc"]).IsSanctioned "0xAbC" = false
    ∧ ((privacy.NewPrivacyManager (sanctions.NewDetector ["0xabc"])).GenerateStealthAddress
        ({ S256 := toy.curve, Keccak256 := toy.hash, PubkeyToAddressHex := fun _ => "0xAbC",
           randReader := toy.reader } : privacy.Lib (List (Except privacy.Error Nat)))
        ⟨toy.curve, 7, 5⟩ [Except.ok 5]).1.2.2 = none :=
  ⟨by decide, by decide,
    (sanctions.IsSanctioned_case_sensitive
      ({ S256 := toy.curve, Keccak256 := toy.hash, PubkeyToAddressHex := fun _ => "0xAbC",
         randReader := toy.reader } : privacy.Lib (List (Except privacy.Error Nat)))
      ⟨toy.curve, 7, 5⟩ "0xabc" [Except.ok 5] [] 5 (by decide) (by decide) rfl).2⟩

/-- C17. Remove undoes add: `AddAddress(a)` followed by `RemoveAddress(a)` gives
back the original set exactly when `a` was not in it; `RemoveAddress(a)` followed
by `AddAddress(a)` gives the set that holds `a` and, at every other address,
what the original held. -/
theorem sanctions.RemoveAddress_AddAddress (d : sanctions.Detector) (a : String) :
    ((d.AddAddress a).RemoveAddress a = d ↔ d.IsSanctioned a = false)
    ∧ (d.RemoveAddress a).AddAddress a = d.AddAddress a
    ∧ (∀ b : String,
        ((d.RemoveAddress a).AddAddress a).IsSanctioned b
          = (decide (b = a) || d.IsSanctioned b)) := by
  cases d with
  | mk s =>
    refine ⟨?_, ?_, fun b => ?_⟩
    · simp [sanctions.Detector.AddAddress, sanctions.Detector.RemoveAddress,
        sanctions.Detector.IsSanctioned]
    · have hset : insert a (s.erase a) = insert a s := by
        ext b
        by_cases hb : b = a <;> simp [hb]
      simp [sanctions.Detector.AddAddress, sanctions.Detector.RemoveAddress, hset]
    · by_cases hb : b = a <;>
        simp [sanctions.Detector.AddAddress, sanctions.Detector.RemoveAddress,
          sanctions.Detector.IsSanctioned, hb]

/-- C18 fails on the code: for a bound request whose recipient private key string
has fewer than two bytes (empty, or the one byte `a`), the slice
`req.RecipientPrivKey[2:]` is out of range and the handler ends in a runtime
failure, whatever the libraries and the other field are; it is not a 400
response. -/
theorem controller.RecoverStealthPrivKey_short_key {ρ : Type} (clib : controller.Lib)
    (lib : privacy.Lib ρ) (s : controller.Server) (ephemeralPubKey : List Nat) :
    controller.RecoverStealthPrivKey clib lib (some ⟨[97], ephemeralPubKey⟩) s
      = controller.HandlerResult.runtimeFailure
    ∧ controller.RecoverStealthPrivKey clib lib (some ⟨[], ephemeralPubKey⟩) s
      = controller.HandlerResult.runtimeFailure
    ∧ controller.sliceFrom [97] 2 = none := by
  refine ⟨rfl, rfl, rfl⟩
